import Mathlib

/-!
Verification of the knowledge-extraction pipeline.

Shallow embedding of the core of the repository:
* `services/pdf_processor.py` — chapter segmentation (`_split_into_chapters`,
  `_split_by_chunks`, `_extract_chapter_title`, `extract_chapters`);
* `services/knowledge_extractor.py` — the concurrency-bounded fan-out
  orchestrator (`extract_knowledge_points`, `_process_chapter_with_semaphore`);
* `services/langchain_service.py` — the template-guided extractor and the
  merge stage (`extract_knowledge_from_chapter`, `merge_knowledge_points`).

Python regular-expression matching (`re.findall` over the five
`chapter_patterns`) is kept abstract as an oracle argument
`findall : String → String → List String`; every concrete instantiation used
below is justified in its doc comment.  The chunk-split fallback delegates to
langchain's `RecursiveCharacterTextSplitter`; that library routine is embedded
faithfully below (`splitTextModel`) with the exact configuration the source
constructs in `PDFProcessor.__init__` (chunk_size 4000, chunk_overlap 200,
separators ["\n\n", "\n", " ", ""], keep_separator true, strip_whitespace
true, length = character count).
-/

/-- A JSON value, as handled by the pipeline (dictionaries keep insertion
order, as Python dicts do). -/
inductive JsonVal where
  | null : JsonVal
  | bool (b : Bool) : JsonVal
  | num (n : Int) : JsonVal
  | str (s : String) : JsonVal
  | arr (xs : List JsonVal) : JsonVal
  | obj (kvs : List (String × JsonVal)) : JsonVal
  deriving Repr

/-- A chapter unit as produced by the segmenter: the dictionaries
`{"chapter_number": ..., "title": ..., "content": ...}` built in
`pdf_processor.py` (also `ChapterInfo` in `models/schemas.py`). -/
structure Chapter where
  chapter_number : Nat
  title : String
  content : String
  deriving Repr, DecidableEq

/-! ### Python string primitives

The segmenter uses Python's `str.strip()`, `str.split(sep)` and string
slicing; they are embedded structurally over character lists so that every
concrete evaluation below reduces in the kernel. -/

/-- The characters Python's `str.strip()` removes. -/
def pyWhitespaceChar (c : Char) : Bool :=
  c = ' ' || c = '\t' || c = '\n' || c = '\r' || c = '\x0b' || c = '\x0c'

/-- Python `s.strip()`: drop leading and trailing whitespace. -/
def pyStrip (s : String) : String :=
  String.mk (((s.data.dropWhile pyWhitespaceChar).reverse.dropWhile
    pyWhitespaceChar).reverse)

/-- Remainder of `l` after the prefix `pre`, when `pre` is a prefix. -/
def dropPre : List Char → List Char → Option (List Char)
  | [], l => some l
  | _ :: _, [] => none
  | p :: ps, c :: cs => if p = c then dropPre ps cs else none

/-- Worker for Python `s.split(sep)` (non-empty `sep`): leftmost-first,
non-overlapping, keeping empty parts; `acc` holds the current part reversed
and `fuel` bounds the recursion by the input length. -/
def pySplitGo (sep : List Char) : Nat → List Char → List Char →
    List (List Char)
  | _, acc, [] => [acc.reverse]
  | 0, acc, l => [acc.reverse ++ l]
  | fuel + 1, acc, c :: cs =>
    match dropPre sep (c :: cs) with
    | some rest => acc.reverse :: pySplitGo sep fuel [] rest
    | none => pySplitGo sep fuel (c :: acc) cs

/-- Python `s.split(sep)` for a non-empty separator. -/
def pySplit (s sep : String) : List String :=
  (pySplitGo sep.data (s.data.length + 1) [] s.data).map String.mk

/-- Python `sep.join(parts)`. -/
def pyJoin (sep : String) (parts : List String) : String :=
  String.mk (List.intercalate sep.data (parts.map String.data))

/-- Python slicing `s[:n]`. -/
def pyTake (s : String) (n : Nat) : String :=
  String.mk (s.data.take n)

/-! ### `PDFProcessor._extract_chapter_title` (pdf_processor.py lines 126-150) -/

/-- Embedding of `_extract_chapter_title`: split the stripped chapter text on
newlines; return the first of the first three lines that, once stripped, is
non-empty and shorter than 100 characters; otherwise fall back to the first
non-empty line of the whole text (truncated to 100 characters plus an
ellipsis when longer than 100); otherwise the literal "Untitled Chapter". -/
def extract_chapter_title (chapter_text : String) : String :=
  let lines := pySplit (pyStrip chapter_text) "\n"
  match ((lines.take 3).map pyStrip).find? (fun l => l ≠ "" && l.length < 100) with
  | some l => l
  | none =>
    match (lines.map pyStrip).find? (fun l => l ≠ "") with
    | some l => if l.length > 100 then pyTake l 100 ++ "..." else l
    | none => "Untitled Chapter"

/-! ### `PDFProcessor._split_into_chapters` (pdf_processor.py lines 61-102) -/

/-- The five regular expressions of `chapter_patterns`
(pdf_processor.py lines 72-78), in source order. -/
def chapter_patterns : List String :=
  [ "第[一二三四五六七八九十\\d]+章.*?(?=第[一二三四五六七八九十\\d]+章|$)"
  , "Chapter\\s+\\d+.*?(?=Chapter\\s+\\d+|$)"
  , "CHAPTER\\s+\\d+.*?(?=CHAPTER\\s+\\d+|$)"
  , "\\n\\d+\\..*?(?=\\n\\d+\\.|$)"
  , "\\n[A-Z][^.]*\\n.*?(?=\\n[A-Z][^.]*\\n|$)" ]

/-- Build the chapter list from the matches of the winning pattern
(pdf_processor.py lines 85-91): chapter `i` (0-based) of the match list gets
`chapter_number = i + 1`, a title derived from its text, and its stripped
text as content. -/
def chaptersOfMatches (ms : List String) : List Chapter :=
  ms.enum.map fun im =>
    { chapter_number := im.1 + 1
      title := extract_chapter_title im.2
      content := pyStrip im.2 }

/-- The pattern loop of `_split_into_chapters` (lines 82-92): try the
patterns in order; the first whose `re.findall` result has more than one
match wins and later patterns are not consulted.  `findall p text` stands for
`re.findall(p, text, re.DOTALL | re.IGNORECASE)`. -/
def tryPatterns (findall : String → String → List String) (text : String) :
    List String → List Chapter
  | [] => []
  | p :: ps =>
    let ms := findall p text
    if ms.length > 1 then chaptersOfMatches ms
    else tryPatterns findall text ps

/-- Embedding of `_split_into_chapters` (lines 61-102): run the pattern loop;
if no pattern produced chapters, return the whole stripped text as the single
chapter "Complete Document". -/
def split_into_chapters (findall : String → String → List String)
    (text : String) : List Chapter :=
  let chapters := tryPatterns findall text chapter_patterns
  if chapters = [] then
    [{ chapter_number := 1, title := "Complete Document", content := pyStrip text }]
  else chapters

/-! ### The chunk-split fallback

`PDFProcessor.__init__` (lines 17-23) builds a
`RecursiveCharacterTextSplitter(chunk_size=4000, chunk_overlap=200,
length_function=len, separators=["\n\n", "\n", " ", ""])`; the langchain
defaults `keep_separator=True` and `strip_whitespace=True` apply.  The
functions below embed `split_text` of that library class. -/

/-- Whether non-empty `sep` occurs in `text` as a substring: models
`re.search(re.escape(sep), text)` in the separator-selection loop. -/
def occursIn (sep text : String) : Bool :=
  (pySplit text sep).length > 1

/-- Separator selection of `RecursiveCharacterTextSplitter._split_text`:
walk the separator list; an empty separator is chosen at once (with no
remaining separators); otherwise the first separator occurring in the text
is chosen together with the remaining separators; if none occurs the last
separator is kept with no remaining separators. -/
def chooseSep (text : String) : List String → String × List String
  | [] => ("", [])
  | s :: rest =>
    if s = "" then ("", [])
    else if occursIn s text then (s, rest)
    else if rest = [] then (s, [])
    else chooseSep text rest

/-- Models `_split_text_with_regex(text, re.escape(sep), keep_separator=True)`:
for an empty separator, the list of single characters; otherwise split on the
literal separator keeping each separator glued to the following part; empty
parts are dropped. -/
def splitTextWithRegex (text sep : String) : List String :=
  if sep = "" then
    (text.data.map fun c => String.mk [c]).filter (· ≠ "")
  else
    match pySplit text sep with
    | [] => []
    | p :: ps => (p :: ps.map (fun q => sep ++ q)).filter (· ≠ "")

/-- Models `TextSplitter._join_docs(docs, sep)` with `strip_whitespace=True`:
join, strip, and drop the chunk when the stripped join is empty. -/
def joinDocs (docs : List String) (sep : String) : Option String :=
  let t := pyStrip (pyJoin sep docs)
  if t = "" then none else some t

/-- The inner `while` of `TextSplitter._merge_splits`: pop documents from the
front of the running window while the running total exceeds the overlap, or
the window plus the incoming split would exceed the chunk size with a
positive total. -/
def popWhile (chunkSize overlap sepLen dLen : Nat) :
    List String → Nat → List String × Nat
  | [], total => ([], total)
  | d :: rest, total =>
    if total > overlap ||
        (total + dLen + (if (d :: rest).length > 0 then sepLen else 0) > chunkSize
          && total > 0) then
      popWhile chunkSize overlap sepLen dLen rest
        (total - (d.length + if rest.length > 0 then sepLen else 0))
    else (d :: rest, total)

/-- One iteration of the `for d in splits` loop of `_merge_splits`, threading
the state `(emitted docs, current window, running total)`. -/
def mergeStep (chunkSize overlap sepLen : Nat) (sep : String)
    (st : List String × List String × Nat) (d : String) :
    List String × List String × Nat :=
  let docs := st.1
  let current := st.2.1
  let total := st.2.2
  let dLen := d.length
  if total + dLen + (if current.length > 0 then sepLen else 0) > chunkSize then
    let docs := if current.length > 0 then
        (match joinDocs current sep with
          | some doc => docs ++ [doc]
          | none => docs)
      else docs
    let pop := if current.length > 0 then
        popWhile chunkSize overlap sepLen dLen current total
      else (current, total)
    let current := pop.1 ++ [d]
    let total := pop.2 + dLen + (if pop.1.length > 0 then sepLen else 0)
    (docs, current, total)
  else
    (docs, current ++ [d], total + dLen + (if current.length > 0 then sepLen else 0))

/-- Embedding of `TextSplitter._merge_splits(splits, sep)`. -/
def mergeSplits (chunkSize overlap : Nat) (splits : List String)
    (sep : String) : List String :=
  let sepLen := sep.length
  let out := splits.foldl (mergeStep chunkSize overlap sepLen sep) ([], [], 0)
  match joinDocs out.2.1 sep with
  | some doc => out.1 ++ [doc]
  | none => out.1

/-- One iteration of the `for s in splits` loop of
`RecursiveCharacterTextSplitter._split_text`, threading
`(final_chunks, good_splits)`; `recurse` handles an oversized split with the
remaining separators (`none` when no separators remain). -/
def recSplitStep (chunkSize overlap : Nat)
    (recurse : Option (String → List String))
    (st : List String × List String) (s : String) :
    List String × List String :=
  let finalChunks := st.1
  let good := st.2
  if s.length < chunkSize then (finalChunks, good ++ [s])
  else
    let finalChunks := if good.length > 0 then
        finalChunks ++ mergeSplits chunkSize overlap good ""
      else finalChunks
    match recurse with
    | none => (finalChunks ++ [s], [])
    | some f => (finalChunks ++ f s, [])

/-- Embedding of `RecursiveCharacterTextSplitter._split_text(text, seps)`
(with `keep_separator=True`, so merging always uses the empty separator).
Recursion is over the separator list, which strictly shrinks at each nested
call. -/
def recSplitText (chunkSize overlap : Nat) :
    Nat → List String → String → List String
  | 0, _, _ => []
  | fuel + 1, seps, text =>
    let cs := chooseSep text seps
    let splits := splitTextWithRegex text cs.1
    let recurse : Option (String → List String) :=
      if cs.2 = [] then none
      else some (recSplitText chunkSize overlap fuel cs.2)
    let out := splits.foldl (recSplitStep chunkSize overlap recurse) ([], [])
    if out.2.length > 0 then out.1 ++ mergeSplits chunkSize overlap out.2 ""
    else out.1

/-- Embedding of `self.text_splitter.split_text` as configured in
`PDFProcessor.__init__`: chunk size 4000, overlap 200, separators
`["\n\n", "\n", " ", ""]` (fuel 5 covers the four separators plus one). -/
def splitTextModel (text : String) : List String :=
  recSplitText 4000 200 5 ["\n\n", "\n", " ", ""] text

/-! ### `PDFProcessor._split_by_chunks` (lines 104-124) and
`PDFProcessor.extract_chapters` (lines 25-59) -/

/-- Embedding of `_split_by_chunks`, parameterized by the chunk splitter:
chunk `i` (0-based) becomes the chapter numbered `i + 1`, titled
"Section {i+1}", with the stripped chunk as content. -/
def split_by_chunks (splitText : String → List String) (text : String) :
    List Chapter :=
  (splitText text).enum.map fun ic =>
    { chapter_number := ic.1 + 1
      title := "Section " ++ toString (ic.1 + 1)
      content := pyStrip ic.2 }

/-- Embedding of the segmentation part of `extract_chapters`
(lines 48-52), starting from the page-joined full text (PDF loading is an
external collaborator): pattern-based splitting, then the chunk-split
fallback when at most one chapter was found. -/
def extract_chapters (findall : String → String → List String)
    (splitText : String → List String) (full_text : String) : List Chapter :=
  let chapters := split_into_chapters findall full_text
  if chapters.length ≤ 1 then split_by_chunks splitText full_text
  else chapters

/-- The chapter numbers of a chapter list, in order. -/
def chapterNumbers (cs : List Chapter) : List Nat :=
  cs.map Chapter.chapter_number

/-! ### JSON serialization

Models Python's `json.dumps(v, indent=2, ensure_ascii=False)` as used by
`langchain_service.py` for prompt construction (string escaping covers the
escape characters relevant to the values handled in this development). -/

/-- Escape one character as inside a Python `json.dumps` string literal. -/
def escapeJsonChar (c : Char) : String :=
  if c = '"' then "\\\""
  else if c = '\\' then "\\\\"
  else if c = '\n' then "\\n"
  else if c = '\t' then "\\t"
  else if c = '\r' then "\\r"
  else String.mk [c]

/-- Escape a string as inside a JSON string literal (`ensure_ascii=False`
leaves non-ASCII characters as they are). -/
def escapeJson (s : String) : String :=
  String.join (s.toList.map escapeJsonChar)

/-- Indentation of `n` spaces. -/
def padSpaces (n : Nat) : String :=
  String.mk (List.replicate n ' ')

mutual

/-- Render one JSON value at indentation level `ind`, following
`json.dumps(v, indent=2, ensure_ascii=False)`. -/
def jsonDumpsVal : Nat → JsonVal → String
  | _, .null => "null"
  | _, .bool true => "true"
  | _, .bool false => "false"
  | _, .num n => toString n
  | _, .str s => "\"" ++ escapeJson s ++ "\""
  | _, .arr [] => "[]"
  | ind, .arr (x :: xs) =>
    "[\n" ++ String.intercalate ",\n"
      ((jsonDumpsItems (ind + 2) (x :: xs)).map (fun t => padSpaces (ind + 2) ++ t))
      ++ "\n" ++ padSpaces ind ++ "]"
  | _, .obj [] => "\x7b\x7d"
  | ind, .obj (kv :: kvs) =>
    "\x7b\n" ++ String.intercalate ",\n"
      ((jsonDumpsFields (ind + 2) (kv :: kvs)).map (fun t => padSpaces (ind + 2) ++ t))
      ++ "\n" ++ padSpaces ind ++ "\x7d"

/-- Render the items of a JSON array. -/
def jsonDumpsItems : Nat → List JsonVal → List String
  | _, [] => []
  | ind, x :: xs => jsonDumpsVal ind x :: jsonDumpsItems ind xs

/-- Render the fields of a JSON object. -/
def jsonDumpsFields : Nat → List (String × JsonVal) → List String
  | _, [] => []
  | ind, (k, v) :: kvs =>
    ("\"" ++ escapeJson k ++ "\": " ++ jsonDumpsVal ind v) :: jsonDumpsFields ind kvs

end

/-- Models `json.dumps(v, indent=2, ensure_ascii=False)`. -/
def jsonDumps (v : JsonVal) : String :=
  jsonDumpsVal 0 v

/-! ### `LangChainService` (langchain_service.py)

The module imports, lines 6-13: `logging`, `os`, `Dict`/`Any`/`List`,
`ChatOpenAI`, `ChatPromptTemplate`, `JsonOutputParser`,
`LangChainException`, `load_dotenv`; module globals: `logger` (line 18) and
the class `LangChainService` (line 20).  The name `json` is **not** among
them, yet `json.dumps` is called at lines 90, 149 and 150: at run time
Python raises `NameError: name 'json' is not defined` there, before any
request to the model is issued. -/

/-- The names bound at module level in `services/langchain_service.py`. -/
def langchainServiceModuleNames : List String :=
  [ "logging", "os", "Dict", "Any", "List", "ChatOpenAI", "ChatPromptTemplate"
  , "JsonOutputParser", "LangChainException", "load_dotenv", "logger"
  , "LangChainService" ]

/-- Failure modes of one extraction call, per the error taxonomy:
a transport/connectivity failure of the model call, an unparseable textual
response, or a Python `NameError` from an unbound name. -/
inductive ExtractErr where
  | nameError (missing : String) : ExtractErr
  | transport (msg : String) : ExtractErr
  | jsonParse (msg : String) : ExtractErr
  deriving Repr, DecidableEq

/-- Outcome of one call to `extract_knowledge_from_chapter`, together with
the number of requests actually issued to the external model. -/
structure ExtractCall where
  outcome : Except ExtractErr JsonVal
  requestsIssued : Nat
  deriving Repr

/-- The human message of `knowledge_prompt` (langchain_service.py lines
55-63) with its two slots filled: the rendered request body sent to the
model. -/
def renderKnowledgePrompt (chapter_content serialized_structure : String) : String :=
  "Please analyze the following course chapter and extract knowledge points according to the provided JSON structure.\n\nCHAPTER CONTENT:\n"
    ++ chapter_content
    ++ "\n\nJSON STRUCTURE TEMPLATE:\n"
    ++ serialized_structure
    ++ "\n\nExtract the knowledge points from the chapter content and fill the JSON template accordingly. Return ONLY the filled JSON structure, no additional text or explanations."

/-- Embedding of `LangChainService.extract_knowledge_from_chapter`
(lines 69-104).  `llm` models one request/response cycle against the
external model (`self.processing_chain.ainvoke` up to the raw text);
`parseJson` models `JsonOutputParser` on the raw response.  Evaluating the
prompt inputs requires the name `json` (line 90, `json.dumps(...)`); when it
is unbound the call fails with a `NameError` and no request is issued. -/
def extract_knowledge_from_chapter (llm : String → Except String String)
    (parseJson : String → Except String JsonVal)
    (chapter_content : String) (json_structure : JsonVal) : ExtractCall :=
  if langchainServiceModuleNames.contains "json" then
    let serialized := jsonDumps json_structure
    let prompt := renderKnowledgePrompt chapter_content serialized
    match llm prompt with
    | .error e => { outcome := .error (.transport e), requestsIssued := 1 }
    | .ok raw =>
      match parseJson raw with
      | .error e => { outcome := .error (.jsonParse e), requestsIssued := 1 }
      | .ok v => { outcome := .ok v, requestsIssued := 1 }
  else { outcome := .error (.nameError "json"), requestsIssued := 0 }

/-! ### The orchestrator: `KnowledgeExtractor` (knowledge_extractor.py)

The per-chapter extractor and the merger are abstracted as function
arguments (the spec's "fake extractor"/"fake merger"); the semaphore-based
interleaving is modelled separately below for the concurrency claim —
`asyncio.gather` (line 50) returns one outcome per task in task-submission
order, with `return_exceptions=True` turning per-task exceptions into
entries of that list. -/

/-- A Python dict with string keys, keeping insertion order. -/
abbrev JsonObj := List (String × JsonVal)

/-- Python dict item assignment `d[k] = v`: overwrite in place when the key
exists, otherwise append the new key at the end. -/
def dictSet (d : JsonObj) (k : String) (v : JsonVal) : JsonObj :=
  if d.any (fun kv => kv.1 == k) then
    d.map (fun kv => if kv.1 == k then (k, v) else kv)
  else d ++ [(k, v)]

/-- Python dict lookup `d.get(k)`. -/
def dictGet (d : JsonObj) (k : String) : Option JsonVal :=
  (d.find? (fun kv => kv.1 == k)).map Prod.snd

/-- The provenance record inserted under the reserved key `_chapter_info`
(knowledge_extractor.py lines 102-105). -/
def chapterInfoVal (ch : Chapter) : JsonVal :=
  .obj [("chapter_number", .num ch.chapter_number), ("title", .str ch.title)]

/-- Embedding of the body of `_process_chapter_with_semaphore` (lines
93-112): call the extractor on the chapter content and the shared template;
on success insert the provenance record under `_chapter_info` and return the
result; on failure re-raise. -/
def process_chapter_with_semaphore
    (extractor : String → JsonVal → Except String JsonObj)
    (knowledge_structure : JsonVal) (ch : Chapter) : Except String JsonObj :=
  match extractor ch.content knowledge_structure with
  | .ok result => .ok (dictSet result "_chapter_info" (chapterInfoVal ch))
  | .error e => .error e

/-- Embedding of lines 42-50: one task per chapter, gathered in
task-submission order with `return_exceptions=True` — one outcome per
chapter, failures included. -/
def gatherResults (extractor : String → JsonVal → Except String JsonObj)
    (knowledge_structure : JsonVal) (chapters : List Chapter) :
    List (Except String JsonObj) :=
  chapters.map (process_chapter_with_semaphore extractor knowledge_structure)

/-- Embedding of lines 53-58: keep the successful results, in gathered
order. -/
def successfulResults (outcomes : List (Except String JsonObj)) : List JsonObj :=
  outcomes.filterMap fun o =>
    match o with
    | .ok r => some r
    | .error _ => none

/-- Embedding of the error logging of lines 54-56: one log line per failed
outcome, carrying the 1-based position of the chapter. -/
def failureLogs (outcomes : List (Except String JsonObj)) : List String :=
  outcomes.enum.filterMap fun io =>
    match io.2 with
    | .error e => some ("Failed to process chapter " ++ toString (io.1 + 1) ++ ": " ++ e)
    | .ok _ => none

/-- Outcome of the whole pipeline run. -/
inductive PipelineOutcome where
  | ok (merged : JsonVal) : PipelineOutcome
  | pipelineFailure (msg : String) : PipelineOutcome
  | mergeFailure (msg : String) : PipelineOutcome
  deriving Repr

/-- Embedding of `KnowledgeExtractor.extract_knowledge_points` (lines
20-74): gather one outcome per chapter, keep the successes; when there is no
success raise the pipeline-level failure (line 61, `Exception("Failed to
process any chapters successfully")`); otherwise hand the successes to the
merge stage. -/
def extract_knowledge_points
    (extractor : String → JsonVal → Except String JsonObj)
    (merger : List JsonObj → JsonVal → Except String JsonVal)
    (chapters : List Chapter) (knowledge_structure : JsonVal) : PipelineOutcome :=
  let outcomes := gatherResults extractor knowledge_structure chapters
  let successes := successfulResults outcomes
  if successes.isEmpty then
    .pipelineFailure "Failed to process any chapters successfully"
  else
    match merger successes knowledge_structure with
    | .ok v => .ok v
    | .error e => .mergeFailure e

/-! ### The merge stage: `LangChainService.merge_knowledge_points`
(langchain_service.py lines 106-160)

For the non-mutation claim the list of per-chapter results is threaded
through the call as explicit state: the embedding returns, next to the call
outcome, the state of `extracted_points` after the call.  The source only
ever reads the list (at the `json.dumps` call of line 149); it contains no
assignment into the list or its elements, so the post-call state is the
argument itself — mutation, where the source performs it (the
`result['_chapter_info'] = ...` assignment of the orchestrator), is made
explicit through `dictSet`. -/

/-- Outcome of one call to `merge_knowledge_points`, with the number of
requests issued and the observed state of `extracted_points` after the
call. -/
structure MergeCall where
  outcome : Except ExtractErr JsonVal
  requestsIssued : Nat
  extracted_points_after : List JsonObj
  deriving Repr

/-- The serialized dynamic inputs of the single merge request (lines
148-151): `json.dumps(extracted_points, indent=2, ensure_ascii=False)` — the
list serializes as a JSON array of its objects — and
`json.dumps(target_structure, indent=2, ensure_ascii=False)`. -/
def mergeSerializedInput (extracted_points : List JsonObj)
    (target_structure : JsonVal) : String × String :=
  ( jsonDumps (.arr (extracted_points.map JsonVal.obj))
  , jsonDumps target_structure )

/-- The human message of `merge_prompt` (lines 135-143) with its two slots
filled. -/
def renderMergePrompt (serialized_points serialized_structure : String) : String :=
  "Please merge the following extracted knowledge points into the target JSON structure:\n\nEXTRACTED KNOWLEDGE POINTS:\n"
    ++ serialized_points
    ++ "\n\nTARGET JSON STRUCTURE:\n"
    ++ serialized_structure
    ++ "\n\nMerge all knowledge points into a comprehensive, well-organized JSON structure."

/-- Embedding of `merge_knowledge_points` (lines 106-160): serialize the
collected results and the template, issue the single merge request, parse
the raw response as JSON.  As in the extractor, evaluating the inputs
requires the module-level name `json` (lines 149-150). -/
def merge_knowledge_points (llm : String → Except String String)
    (parseJson : String → Except String JsonVal)
    (extracted_points : List JsonObj) (target_structure : JsonVal) : MergeCall :=
  if langchainServiceModuleNames.contains "json" then
    let ser := mergeSerializedInput extracted_points target_structure
    let prompt := renderMergePrompt ser.1 ser.2
    match llm prompt with
    | .error e =>
      { outcome := .error (.transport e), requestsIssued := 1
        extracted_points_after := extracted_points }
    | .ok raw =>
      match parseJson raw with
      | .error e =>
        { outcome := .error (.jsonParse e), requestsIssued := 1
          extracted_points_after := extracted_points }
      | .ok v =>
        { outcome := .ok v, requestsIssued := 1
          extracted_points_after := extracted_points }
  else
    { outcome := .error (.nameError "json"), requestsIssued := 0
      extracted_points_after := extracted_points }

/-! ### The concurrency model

`extract_knowledge_points` creates `asyncio.Semaphore(3)` (line 39 with
`self.max_concurrent_requests = 3`, line 18) and one task per chapter; each
task runs `_process_chapter_with_semaphore`, whose whole body sits inside
`async with semaphore:` (line 93).  The cooperative interleaving of the
tasks is modelled as a transition system: a pending task may enter the
`async with` block only when the semaphore counter is positive, decrementing
it; a task in flight leaves the block on success (return, line 108) or on
failure (raise, line 112), and `async with` releases — increments — the
semaphore on both exits.  No other transitions touch the counter. -/

/-- Scheduling state of one chapter-extraction task. -/
inductive TaskState where
  | pending : TaskState
  | inflight : TaskState
  | done (success : Bool) : TaskState
  deriving Repr, DecidableEq

/-- Whether a task currently holds the semaphore (is inside the
`async with` block, its extraction call unresolved). -/
def isInflightTask (t : TaskState) : Bool :=
  match t with
  | .inflight => true
  | _ => false

/-- Global scheduling state: the semaphore counter and the per-task
states. -/
structure OrchState where
  sem : Nat
  tasks : List TaskState
  deriving Repr, DecidableEq

/-- Number of simultaneously in-flight extraction calls. -/
def countInflight (ts : List TaskState) : Nat :=
  ts.countP isInflightTask

/-- Initial state of a run: the semaphore holds `k` permits
(`asyncio.Semaphore(k)`) and all `n` tasks are pending. -/
def initOrchState (k n : Nat) : OrchState :=
  { sem := k, tasks := List.replicate n TaskState.pending }

/-- One scheduler step.  `acquire`: a pending task enters `async with
semaphore` — only possible when the counter is positive, which it
decrements.  `finish`: an in-flight task completes its extraction call with
success or failure; leaving the `async with` block increments the counter on
either exit. -/
inductive OrchStep : OrchState → OrchState → Prop where
  | acquire (m : Nat) (ts : List TaskState) (i : Nat) (hi : i < ts.length)
      (hp : ts.get ⟨i, hi⟩ = TaskState.pending) :
      OrchStep { sem := m + 1, tasks := ts }
        { sem := m, tasks := ts.set i TaskState.inflight }
  | finish (m : Nat) (ts : List TaskState) (i : Nat) (b : Bool)
      (hi : i < ts.length) (hf : ts.get ⟨i, hi⟩ = TaskState.inflight) :
      OrchStep { sem := m, tasks := ts }
        { sem := m + 1, tasks := ts.set i (TaskState.done b) }

/-- States reachable during a run with concurrency limit `k` and `n`
chapters. -/
inductive OrchReachable (k n : Nat) : OrchState → Prop where
  | init : OrchReachable k n (initOrchState k n)
  | step {s t : OrchState} :
      OrchReachable k n s → OrchStep s t → OrchReachable k n t

/-! ### Derived notions used by the statements below -/

/-- Whether the extractor succeeds on a chapter (the per-chapter call of
knowledge_extractor.py line 97 returns instead of raising). -/
def succeedsOn (extractor : String → JsonVal → Except String JsonObj)
    (ks : JsonVal) (ch : Chapter) : Bool :=
  match extractor ch.content ks with
  | .ok _ => true
  | .error _ => false

/-- The tagged result a successfully extracted chapter contributes to the
output sequence (dummy value for a failing chapter; only used beneath a
success filter). -/
def okPayload (extractor : String → JsonVal → Except String JsonObj)
    (ks : JsonVal) (ch : Chapter) : JsonObj :=
  match extractor ch.content ks with
  | .ok r => dictSet r "_chapter_info" (chapterInfoVal ch)
  | .error _ => []

/-- Title derivation as the claim words it (refinement reference, to be
compared with `extract_chapter_title` from the source): scan the first three
NON-EMPTY lines for one shorter than 100 characters; if none qualifies, fall
back to the first non-empty line (truncated with an ellipsis when over the
cap), and to the placeholder "Untitled Chapter" when no non-empty line
exists. -/
def extract_chapter_title_claim (chapter_text : String) : String :=
  let stripped := (pySplit (pyStrip chapter_text) "\n").map pyStrip
  let nonemptyLines := stripped.filter (· ≠ "")
  match (nonemptyLines.take 3).find? (fun l => l.length < 100) with
  | some l => l
  | none =>
    match nonemptyLines with
    | l :: _ => if l.length > 100 then pyTake l 100 ++ "..." else l
    | [] => "Untitled Chapter"

/-- The `re.findall` oracle on texts in which no chapter pattern can match,
such as `""` and `" "`: each of the five `chapter_patterns` requires at
least one mandatory character — `第`/`章` for the first, the literals
`Chapter`/`CHAPTER` for the second and third, a newline followed by a digit
and a dot for the fourth, a newline followed by an uppercase letter for the
fifth — none of which occurs in the empty or all-whitespace string, so
`re.findall` returns the empty match list for every pattern. -/
def findallNoMatch : String → String → List String := fun _ _ => []

/-! ## Auxiliary lemmas -/

theorem chaptersOfMatches_length (ms : List String) :
    (chaptersOfMatches ms).length = ms.length := by
  simp [chaptersOfMatches]

theorem chapterNumbers_enum_map {α : Type} (ms : List α) (f : Nat × α → Chapter)
    (hf : ∀ im, (f im).chapter_number = im.1 + 1) :
    chapterNumbers (ms.enum.map f) = List.range' 1 ms.length := by
  unfold chapterNumbers
  rw [List.map_map]
  have h1 : (Chapter.chapter_number ∘ f) = (fun n : Nat => n + 1) ∘ Prod.fst :=
    funext hf
  rw [h1, ← List.map_map, List.enum_map_fst, List.range'_eq_map_range]
  exact List.map_congr_left fun n _ => Nat.add_comm n 1

theorem chapterNumbers_chaptersOfMatches (ms : List String) :
    chapterNumbers (chaptersOfMatches ms) = List.range' 1 ms.length :=
  chapterNumbers_enum_map ms _ fun _ => rfl

theorem split_by_chunks_length (st : String → List String) (text : String) :
    (split_by_chunks st text).length = (st text).length := by
  simp [split_by_chunks]

theorem chapterNumbers_split_by_chunks (st : String → List String) (text : String) :
    chapterNumbers (split_by_chunks st text) = List.range' 1 (st text).length :=
  chapterNumbers_enum_map (st text) _ fun _ => rfl

theorem tryPatterns_cases (findall : String → String → List String)
    (text : String) (ps : List String) :
    tryPatterns findall text ps = [] ∨
      ∃ ms : List String, ms.length > 1 ∧
        tryPatterns findall text ps = chaptersOfMatches ms := by
  induction ps with
  | nil => exact Or.inl rfl
  | cons p ps ih =>
    by_cases h : (findall p text).length > 1
    · exact Or.inr ⟨findall p text, h, by simp [tryPatterns, h]⟩
    · simpa [tryPatterns, h] using ih

theorem tryPatterns_eq_nil (findall : String → String → List String)
    (text : String) (ps : List String)
    (h : ∀ p ∈ ps, (findall p text).length ≤ 1) :
    tryPatterns findall text ps = [] := by
  induction ps with
  | nil => rfl
  | cons p ps ih =>
    have hp : ¬ (findall p text).length > 1 := by
      have := h p (List.mem_cons_self p ps)
      omega
    simp only [tryPatterns, if_neg hp]
    exact ih fun q hq => h q (List.mem_cons_of_mem p hq)

theorem chaptersOfMatches_ne_nil (ms : List String) (h : ms.length > 1) :
    chaptersOfMatches ms ≠ [] := by
  have hl := chaptersOfMatches_length ms
  intro hc
  rw [hc] at hl
  simp at hl
  omega

theorem gatherResults_length (e : String → JsonVal → Except String JsonObj)
    (ks : JsonVal) (chs : List Chapter) :
    (gatherResults e ks chs).length = chs.length := by
  simp [gatherResults]

theorem successfulResults_gather (e : String → JsonVal → Except String JsonObj)
    (ks : JsonVal) (chs : List Chapter) :
    successfulResults (gatherResults e ks chs)
      = (chs.filter (succeedsOn e ks)).map (okPayload e ks) := by
  induction chs with
  | nil => rfl
  | cons ch chs ih =>
    cases h : e ch.content ks with
    | ok r =>
      simpa [gatherResults, successfulResults, process_chapter_with_semaphore,
        succeedsOn, okPayload, h, List.filter_cons] using ih
    | error msg =>
      simpa [gatherResults, successfulResults, process_chapter_with_semaphore,
        succeedsOn, okPayload, h, List.filter_cons] using ih

theorem length_filter_add_length_filter_not {α : Type} (p : α → Bool) (l : List α) :
    (l.filter p).length + (l.filter (fun a => !(p a))).length = l.length := by
  induction l with
  | nil => rfl
  | cons a l ih =>
    by_cases h : p a <;> simp [List.filter_cons, h] <;> omega

theorem length_filterMap_enumFrom {α β : Type} (g : Nat × α → Option β)
    (p : α → Bool) (hg : ∀ n a, (g (n, a)).isSome = p a) (os : List α) :
    ∀ n : Nat, ((os.enumFrom n).filterMap g).length = os.countP p := by
  induction os with
  | nil => intro n; rfl
  | cons o os ih =>
    intro n
    rw [List.enumFrom_cons, List.filterMap_cons, List.countP_cons]
    cases hgo : g (n, o) with
    | none =>
      have := hg n o
      rw [hgo] at this
      simp only [Option.isSome_none] at this
      simp [ih (n + 1), ← this]
    | some b =>
      have := hg n o
      rw [hgo] at this
      simp only [Option.isSome_some] at this
      simp [ih (n + 1), ← this]

theorem failureLogs_gather_length (e : String → JsonVal → Except String JsonObj)
    (ks : JsonVal) (chs : List Chapter) :
    (failureLogs (gatherResults e ks chs)).length
      = (chs.filter (fun ch => !(succeedsOn e ks ch))).length := by
  unfold failureLogs List.enum
  rw [length_filterMap_enumFrom _
    (fun o => match o with | .error _ => true | .ok _ => false)
    (fun n a => by cases a <;> rfl)]
  rw [List.countP_eq_length_filter]
  unfold gatherResults
  rw [List.filter_map]
  rw [List.length_map]
  congr 1
  apply List.filter_congr
  intro ch _
  cases h : e ch.content ks <;>
    simp [process_chapter_with_semaphore, succeedsOn, h]

theorem dictGet_dictSet_same (d : JsonObj) (k : String) (v : JsonVal) :
    dictGet (dictSet d k v) k = some v := by
  induction d with
  | nil => simp [dictSet, dictGet]
  | cons kv d ih =>
    by_cases hk : kv.1 = k
    · simp [dictSet, dictGet, hk]
    · by_cases hd : d.any (fun kv => kv.1 == k)
      · have hany : (kv :: d).any (fun kv => kv.1 == k) = true := by
          simp [List.any_cons, hd]
        simp only [dictSet, hany, if_pos] at ih ⊢
        simp only [dictSet, hd, if_pos] at ih
        simp [dictGet, List.find?_cons, hk] at ih ⊢
        simpa [hk] using ih
      · have hany : (kv :: d).any (fun kv => kv.1 == k) = false := by
          simp [List.any_cons, hd, hk]
        simp only [dictSet, hany] at ih ⊢
        simp only [dictSet, hd] at ih
        simp only [Bool.false_eq_true, if_false, List.cons_append]
        simp [dictGet, List.find?_cons, hk] at ih ⊢
        exact ih

theorem tryPatterns_win (findall : String → String → List String) (text : String) :
    ∀ (ps : List String) (j : Nat) (hj : j < ps.length),
      (findall (ps.get ⟨j, hj⟩) text).length > 1 →
      (∀ i (hi : i < ps.length), i < j → (findall (ps.get ⟨i, hi⟩) text).length ≤ 1) →
      tryPatterns findall text ps = chaptersOfMatches (findall (ps.get ⟨j, hj⟩) text) := by
  intro ps
  induction ps with
  | nil => intro j hj; simp at hj
  | cons p ps ih =>
    intro j hj hwin hprev
    cases j with
    | zero =>
      simp only [List.get] at hwin ⊢
      simp [tryPatterns, hwin]
    | succ j =>
      have hp : (findall p text).length ≤ 1 := by
        have := hprev 0 (by simp) (by omega)
        simp [List.get] at this
        exact this
      have hnp : ¬ (findall p text).length > 1 := by omega
      simp only [tryPatterns, if_neg hnp]
      simp only [List.get] at hwin ⊢
      exact ih j (by simpa using hj) hwin
        (fun i hi hij => by
          have := hprev (i + 1) (by simpa using Nat.succ_lt_succ hi) (by omega)
          simp [List.get] at this
          exact this)

theorem countInflight_replicate_pending (n : Nat) :
    countInflight (List.replicate n TaskState.pending) = 0 := by
  induction n with
  | zero => rfl
  | succ n ih =>
    simp [countInflight, List.replicate_succ, List.countP_cons, isInflightTask]

theorem orch_sem_invariant (k n : Nat) (s : OrchState)
    (h : OrchReachable k n s) : s.sem + countInflight s.tasks = k := by
  induction h with
  | init => simp [initOrchState, countInflight_replicate_pending]
  | step hr hs ih =>
    cases hs with
    | acquire m ts i hi hp =>
      have hset := List.countP_set isInflightTask ts i TaskState.inflight hi
      have hgi : isInflightTask ts[i] = false := by
        have : ts[i] = TaskState.pending := by
          rw [← hp]; simp [List.get_eq_getElem]
        rw [this]; rfl
      rw [hgi] at hset
      simp only [isInflightTask] at hset
      simp only [countInflight] at ih ⊢
      simp only [hset]
      simp at ih ⊢
      omega
    | finish m ts i b hi hf =>
      have hset := List.countP_set isInflightTask ts i (TaskState.done b) hi
      have hgi : isInflightTask ts[i] = true := by
        have : ts[i] = TaskState.inflight := by
          rw [← hf]; simp [List.get_eq_getElem]
        rw [this]; rfl
      rw [hgi] at hset
      have hpos : 0 < ts.countP isInflightTask := by
        rw [List.countP_pos_iff]
        refine ⟨ts[i], List.getElem_mem hi, hgi⟩
      simp only [isInflightTask] at hset
      simp only [countInflight] at ih ⊢
      simp only [hset]
      simp at ih ⊢
      omega

/-! ## Claims -/

/-- C4 (code bug): the claim says one extraction call issues exactly one
request to the external model and fails exactly when the transport fails or
the response does not parse as JSON.  The code cannot do this:
`services/langchain_service.py` never imports `json`, yet
`extract_knowledge_from_chapter` evaluates `json.dumps(json_structure, ...)`
(line 90) while building the chain inputs, so every call raises
`NameError: name 'json' is not defined` before a request is issued — here
evaluated at a concrete input on which the transport succeeds and the raw
response is parseable JSON, and the call still fails having issued zero
requests. -/
theorem extract_fails_with_nameerror_before_any_request :
    extract_knowledge_from_chapter
        (fun _ => .ok "\x7b\x7d") (fun _ => .ok (.obj []))
        "Chapter content" (.obj [("topics", .arr [])])
      = { outcome := .error (.nameError "json"), requestsIssued := 0 } := rfl

/-- C9 (confirmed): neither the Merge Stage nor the Orchestrator after
collection mutates the collected results.  The merge call is embedded with
the `extracted_points` list threaded through as observable state; the
theorem shows a first call leaves the list unchanged, a second independent
call on the list observed by the first also leaves it unchanged, and the
serialized representation of the inputs (the `json.dumps` payloads of the
single outbound request) is identical across the two calls. -/
theorem merge_does_not_mutate_results (llm : String → Except String String)
    (parseJson : String → Except String JsonVal)
    (results : List JsonObj) (tmpl : JsonVal) :
    (merge_knowledge_points llm parseJson results tmpl).extracted_points_after
        = results
    ∧ (merge_knowledge_points llm parseJson
          (merge_knowledge_points llm parseJson results tmpl).extracted_points_after
          tmpl).extracted_points_after = results
    ∧ mergeSerializedInput
          (merge_knowledge_points llm parseJson results tmpl).extracted_points_after
          tmpl
        = mergeSerializedInput results tmpl := by
  have h : ∀ (r : List JsonObj) (t : JsonVal),
      (merge_knowledge_points llm parseJson r t).extracted_points_after = r := by
    intro r t
    have hc : ¬ ("json" ∈ langchainServiceModuleNames) := by decide
    simp [merge_knowledge_points, hc]
  refine ⟨h results tmpl, h _ tmpl, ?_⟩
  rw [h results tmpl]

/-- C2 (counterexample): the claim says segmentation returns a non-empty
sequence for every input, the empty string included.  On the empty string no
chapter pattern matches (`findallNoMatch` is the value of `re.findall`
there), so `extract_chapters` takes the chunk-split fallback, and
`RecursiveCharacterTextSplitter.split_text("")` returns no chunks: the
result is the empty sequence, not a non-empty one. -/
theorem segment_empty_input_returns_no_chapters :
    extract_chapters findallNoMatch splitTextModel "" = [] := by decide

/-- C7 (counterexample): the claim says that whenever no boundary pattern
yields more than one match the output is exactly one ChapterUnit holding the
whole document.  On the all-whitespace document `" "` no pattern yields any
match (first conjunct), yet the output of the segmenter is the empty
sequence — zero units, not one: the code falls back to the chunk splitter,
which drops whitespace-only chunks. -/
theorem segment_no_boundary_whitespace_gives_no_chapters :
    (∀ p ∈ chapter_patterns, (findallNoMatch p " ").length ≤ 1)
    ∧ extract_chapters findallNoMatch splitTextModel " " = [] := by
  constructor
  · intro p _
    simp [findallNoMatch]
  · decide

set_option maxRecDepth 40000 in
/-- C8 (counterexample): the claim derives the title by scanning the first
three NON-EMPTY lines.  The code (`_extract_chapter_title`) scans the first
three lines, empty or not: on a chapter whose first line has 150 characters
followed by two empty lines and then the line "ok", the code finds no
qualifying line among the first three and falls back to the truncated first
line, while the claimed rule reaches "ok" (the second non-empty line). -/
theorem title_not_first_three_nonempty_lines :
    extract_chapter_title (String.mk (List.replicate 150 'x') ++ "\n\n\nok")
        = String.mk (List.replicate 100 'x') ++ "..."
    ∧ extract_chapter_title_claim (String.mk (List.replicate 150 'x') ++ "\n\n\nok")
        = "ok"
    ∧ extract_chapter_title (String.mk (List.replicate 150 'x') ++ "\n\n\nok")
        ≠ extract_chapter_title_claim
            (String.mk (List.replicate 150 'x') ++ "\n\n\nok") := by
  refine ⟨by decide, by decide, by decide⟩

/-- C1 (confirmed): for `N` chapters of which exactly `M` fail, the
orchestrator gathers one outcome per chapter (no failure aborts a sibling:
every chapter's call runs to completion and contributes an entry), keeps
exactly `N - M` successful results, logs exactly `M` failures, and raises
the pipeline-level failure (`Exception("Failed to process any chapters
successfully")`, the spec's PipelineFailure) exactly when `M = N`. -/
theorem run_partial_failure_tolerance
    (extractor : String → JsonVal → Except String JsonObj)
    (merger : List JsonObj → JsonVal → Except String JsonVal)
    (chapters : List Chapter) (ks : JsonVal) :
    (gatherResults extractor ks chapters).length = chapters.length
    ∧ (successfulResults (gatherResults extractor ks chapters)).length
        = chapters.length
          - (chapters.filter (fun ch => !(succeedsOn extractor ks ch))).length
    ∧ (failureLogs (gatherResults extractor ks chapters)).length
        = (chapters.filter (fun ch => !(succeedsOn extractor ks ch))).length
    ∧ ((∃ msg, extract_knowledge_points extractor merger chapters ks
          = .pipelineFailure msg)
        ↔ (chapters.filter (fun ch => !(succeedsOn extractor ks ch))).length
            = chapters.length) := by
  have hgl := gatherResults_length extractor ks chapters
  have hs := successfulResults_gather extractor ks chapters
  have hf := failureLogs_gather_length extractor ks chapters
  have hsplit :=
    length_filter_add_length_filter_not (succeedsOn extractor ks) chapters
  have hslen : (successfulResults (gatherResults extractor ks chapters)).length
      = (chapters.filter (succeedsOn extractor ks)).length := by
    rw [hs, List.length_map]
  have hiff : successfulResults (gatherResults extractor ks chapters) = [] ↔
      (chapters.filter (fun ch => !(succeedsOn extractor ks ch))).length
        = chapters.length := by
    rw [hs, List.map_eq_nil_iff]
    constructor
    · intro h
      have h0 : (chapters.filter (succeedsOn extractor ks)).length = 0 := by
        rw [h]; rfl
      omega
    · intro h
      have h0 : (chapters.filter (succeedsOn extractor ks)).length = 0 := by
        omega
      exact List.length_eq_zero.mp h0
  have hred : extract_knowledge_points extractor merger chapters ks
      = (if (successfulResults (gatherResults extractor ks chapters)).isEmpty then
          PipelineOutcome.pipelineFailure
            "Failed to process any chapters successfully"
        else
          match merger (successfulResults (gatherResults extractor ks chapters)) ks with
          | .ok v => PipelineOutcome.ok v
          | .error e => PipelineOutcome.mergeFailure e) := rfl
  refine ⟨hgl, by omega, hf, ?_, ?_⟩
  · rintro ⟨msg, hmsg⟩
    by_contra hne
    have hnil : successfulResults (gatherResults extractor ks chapters) ≠ [] :=
      fun hnl => hne (hiff.mp hnl)
    have hempty :
        (successfulResults (gatherResults extractor ks chapters)).isEmpty
          = false := by
      cases hcase : successfulResults (gatherResults extractor ks chapters) with
      | nil => exact absurd hcase hnil
      | cons a l => rfl
    rw [hred, hempty] at hmsg
    simp only [Bool.false_eq_true, if_false] at hmsg
    cases hm : merger (successfulResults (gatherResults extractor ks chapters)) ks with
    | ok v => rw [hm] at hmsg; simp at hmsg
    | error e => rw [hm] at hmsg; simp at hmsg
  · intro hM
    have hnl : successfulResults (gatherResults extractor ks chapters) = [] :=
      hiff.mpr hM
    refine ⟨"Failed to process any chapters successfully", ?_⟩
    rw [hred, hnl]
    rfl

/-- C10 (confirmed): the orchestrator's output sequence preserves the
relative order of the input chapters — the successful results are exactly
the tagged payloads of the succeeding chapters, mapped over the
order-preserving sublist those chapters form: `asyncio.gather` returns the
per-task outcomes in task-submission order and the filter loop of lines
53-58 scans them in place, so if chapter `i` precedes chapter `j` and both
succeed, `i`'s result precedes `j`'s. -/
theorem run_preserves_chapter_order
    (extractor : String → JsonVal → Except String JsonObj)
    (ks : JsonVal) (chapters : List Chapter) :
    successfulResults (gatherResults extractor ks chapters)
      = (chapters.filter (succeedsOn extractor ks)).map (okPayload extractor ks)
    ∧ (chapters.filter (succeedsOn extractor ks)).Sublist chapters :=
  ⟨successfulResults_gather extractor ks chapters, List.filter_sublist chapters⟩

/-- C6 (confirmed): for every chapter whose extraction succeeds, the
orchestrator's outcome at that chapter's position carries the extractor's
result with the provenance record inserted under the reserved key
`_chapter_info` (lines 102-105), holding exactly that chapter's
`chapter_number` and `title`; looking the key up in the tagged result yields
exactly that record, and the tagged result belongs to the output sequence of
successful results. -/
theorem run_provenance_tagging
    (extractor : String → JsonVal → Except String JsonObj) (ks : JsonVal)
    (chapters : List Chapter) (i : Nat) (r : JsonObj)
    (hi : i < chapters.length)
    (hok : extractor chapters[i].content ks = .ok r) :
    (gatherResults extractor ks chapters)[i]?
        = some (.ok (dictSet r "_chapter_info" (chapterInfoVal chapters[i])))
    ∧ dictGet (dictSet r "_chapter_info" (chapterInfoVal chapters[i]))
        "_chapter_info" = some (chapterInfoVal chapters[i])
    ∧ dictSet r "_chapter_info" (chapterInfoVal chapters[i])
        ∈ successfulResults (gatherResults extractor ks chapters) := by
  have h1 : (gatherResults extractor ks chapters)[i]?
      = some (.ok (dictSet r "_chapter_info" (chapterInfoVal chapters[i]))) := by
    unfold gatherResults
    rw [List.getElem?_map, List.getElem?_eq_getElem hi]
    simp [process_chapter_with_semaphore, hok]
  refine ⟨h1, dictGet_dictSet_same r _ _, ?_⟩
  have hmem : Except.ok (dictSet r "_chapter_info" (chapterInfoVal chapters[i]))
      ∈ gatherResults extractor ks chapters := List.getElem?_mem h1
  unfold successfulResults
  exact List.mem_filterMap.mpr ⟨_, hmem, rfl⟩

/-- Witness for C6 at a concrete run: one chapter, an extractor that
succeeds with `{"topics": [content]}`; the gathered outcome carries the
`_chapter_info` provenance record. -/
theorem run_provenance_tagging_witness :
    (gatherResults (fun c _ => .ok [("topics", JsonVal.arr [JsonVal.str c])])
        (JsonVal.obj []) [{ chapter_number := 1, title := "Intro", content := "alpha" }])[0]?
        = some (.ok (dictSet [("topics", JsonVal.arr [JsonVal.str "alpha"])]
            "_chapter_info"
            (chapterInfoVal { chapter_number := 1, title := "Intro", content := "alpha" })))
    ∧ dictGet (dictSet [("topics", JsonVal.arr [JsonVal.str "alpha"])]
          "_chapter_info"
          (chapterInfoVal { chapter_number := 1, title := "Intro", content := "alpha" }))
        "_chapter_info"
        = some (chapterInfoVal { chapter_number := 1, title := "Intro", content := "alpha" })
    ∧ dictSet [("topics", JsonVal.arr [JsonVal.str "alpha"])] "_chapter_info"
          (chapterInfoVal { chapter_number := 1, title := "Intro", content := "alpha" })
        ∈ successfulResults (gatherResults
            (fun c _ => .ok [("topics", JsonVal.arr [JsonVal.str c])])
            (JsonVal.obj []) [{ chapter_number := 1, title := "Intro", content := "alpha" }]) :=
  run_provenance_tagging (fun c _ => .ok [("topics", JsonVal.arr [JsonVal.str c])])
    (JsonVal.obj []) [{ chapter_number := 1, title := "Intro", content := "alpha" }]
    0 [("topics", JsonVal.arr [JsonVal.str "alpha"])] (by decide) rfl

/-- C5 (confirmed): the boundary patterns are tried in their fixed source
order; when pattern `j` is the first to yield more than one match, the split
is exactly the one built from pattern `j`'s matches — the result does not
depend on any later pattern — and the chapter numbers are assigned as
`1..N` in the order of the match list (`re.findall` returns matches in
document order), never parsed from the matched text. -/
theorem segment_pattern_priority (findall : String → String → List String)
    (text : String) (j : Nat) (hj : j < chapter_patterns.length)
    (hwin : (findall chapter_patterns[j] text).length > 1)
    (hprev : ∀ i (hi : i < chapter_patterns.length), i < j →
      (findall chapter_patterns[i] text).length ≤ 1) :
    split_into_chapters findall text
        = chaptersOfMatches (findall chapter_patterns[j] text)
    ∧ chapterNumbers (split_into_chapters findall text)
        = List.range' 1 (findall chapter_patterns[j] text).length := by
  have htry : tryPatterns findall text chapter_patterns
      = chaptersOfMatches (findall chapter_patterns[j] text) := by
    have h := tryPatterns_win findall text chapter_patterns j hj
      (by simpa [List.get_eq_getElem] using hwin)
      (fun i hi hij => by
        simpa [List.get_eq_getElem] using hprev i hi hij)
    simpa [List.get_eq_getElem] using h
  have heq : split_into_chapters findall text
      = chaptersOfMatches (findall chapter_patterns[j] text) := by
    unfold split_into_chapters
    rw [htry, if_neg (chaptersOfMatches_ne_nil _ hwin)]
  exact ⟨heq, by rw [heq, chapterNumbers_chaptersOfMatches]⟩

/-- Witness for C5 at a concrete run: an oracle on which only the third
pattern (`CHAPTER\s+\d+...`) yields two matches; the split is built from
those two matches with chapter numbers 1, 2. -/
theorem segment_pattern_priority_witness :
    split_into_chapters
        (fun p _ => if p = "CHAPTER\\s+\\d+.*?(?=CHAPTER\\s+\\d+|$)" then
          ["CHAPTER 1 alpha", "CHAPTER 2 beta"] else []) "doc"
      = chaptersOfMatches ["CHAPTER 1 alpha", "CHAPTER 2 beta"]
    ∧ chapterNumbers (split_into_chapters
        (fun p _ => if p = "CHAPTER\\s+\\d+.*?(?=CHAPTER\\s+\\d+|$)" then
          ["CHAPTER 1 alpha", "CHAPTER 2 beta"] else []) "doc")
      = List.range' 1 2 := by
  have h := segment_pattern_priority
    (fun p _ => if p = "CHAPTER\\s+\\d+.*?(?=CHAPTER\\s+\\d+|$)" then
      ["CHAPTER 1 alpha", "CHAPTER 2 beta"] else []) "doc" 2
    (by decide) (by decide)
    (fun i hi hij => by interval_cases i <;> simp [chapter_patterns])
  simpa using h

/-- C3 (confirmed): in every state reachable during a run with concurrency
limit `k` (the source default is `k = 3`, knowledge_extractor.py line 18)
and any chapter count `n`, the number of simultaneously in-flight extraction
calls never exceeds `k`; the underlying invariant is that the semaphore
counter plus the number of in-flight calls is exactly `k` — each call
acquires the semaphore before invoking the extractor and releases it on both
the success and the failure exit of the `async with` block. -/
theorem run_concurrency_ceiling (k n : Nat) (s : OrchState)
    (h : OrchReachable k n s) :
    countInflight s.tasks ≤ k ∧ s.sem + countInflight s.tasks = k := by
  have hinv := orch_sem_invariant k n s h
  exact ⟨by omega, hinv⟩

/-- Witness for C3 at a concrete reachable state: with `k = 3` permits and
two tasks, after the first task acquires the semaphore the in-flight count
is within the ceiling. -/
theorem run_concurrency_ceiling_witness :
    countInflight ((List.replicate 2 TaskState.pending).set 0 TaskState.inflight)
      ≤ 3 := by
  have hstep : OrchStep (initOrchState 3 2)
      { sem := 2
        tasks := (List.replicate 2 TaskState.pending).set 0 TaskState.inflight } :=
    OrchStep.acquire 2 (List.replicate 2 TaskState.pending) 0 (by decide) (by decide)
  have hreach := OrchReachable.step (OrchReachable.init) hstep
  exact (run_concurrency_ceiling 3 2 _ hreach).1

/-- C2 (amended): for every oracle and every text, the chapter numbers of
the segmentation output form exactly `1..N` in output order with no gaps or
repeats; the output is non-empty whenever the chunk splitter returns at
least one chunk (in particular for any text containing a non-whitespace
character) — but not for every input: on the empty or whitespace-only text
the fallback yields the empty sequence (see the counterexample). -/
theorem segment_numbering_and_nonemptiness
    (findall : String → String → List String) (text : String) :
    chapterNumbers (extract_chapters findall splitTextModel text)
      = List.range' 1 (extract_chapters findall splitTextModel text).length
    ∧ (splitTextModel text ≠ [] →
        extract_chapters findall splitTextModel text ≠ []) := by
  rcases tryPatterns_cases findall text chapter_patterns with h | ⟨ms, hms, h⟩
  · have hsp : split_into_chapters findall text
        = [{ chapter_number := 1, title := "Complete Document"
             content := pyStrip text }] := by
      unfold split_into_chapters
      rw [h]
      simp
    unfold extract_chapters
    rw [hsp]
    rw [if_pos (by simp)]
    constructor
    · rw [chapterNumbers_split_by_chunks, split_by_chunks_length]
    · intro hne hc
      have hl := split_by_chunks_length splitTextModel text
      rw [hc] at hl
      simp at hl
      exact hne (List.length_eq_zero.mp hl.symm)
  · have hsp : split_into_chapters findall text = chaptersOfMatches ms := by
      unfold split_into_chapters
      rw [h, if_neg (chaptersOfMatches_ne_nil ms hms)]
    unfold extract_chapters
    rw [hsp]
    have hlen := chaptersOfMatches_length ms
    rw [if_neg (by omega : ¬ (chaptersOfMatches ms).length ≤ 1)]
    refine ⟨?_, fun _ => chaptersOfMatches_ne_nil ms hms⟩
    rw [chapterNumbers_chaptersOfMatches, hlen]

/-- Witness for C2 (amended) at a concrete run: on the text "abc" the
splitter returns one chunk and the segmentation output is non-empty. -/
theorem segment_nonemptiness_witness :
    splitTextModel "abc" ≠ [] ∧
      extract_chapters findallNoMatch splitTextModel "abc" ≠ [] :=
  ⟨by decide, (segment_numbering_and_nonemptiness findallNoMatch "abc").2 (by decide)⟩

/-- C7 (amended): when no boundary pattern yields more than one match, the
segmenter's output is the chunk-split fallback — one pseudo-chapter per
chunk, numbered `1..N` — so it is exactly one ChapterUnit precisely when the
splitter returns exactly one chunk: zero units for empty/whitespace text
and several for text longer than the chunk size, not always one. -/
theorem segment_no_boundary_chunk_fallback
    (findall : String → String → List String) (text : String)
    (h : ∀ p ∈ chapter_patterns, (findall p text).length ≤ 1) :
    extract_chapters findall splitTextModel text
        = split_by_chunks splitTextModel text
    ∧ chapterNumbers (extract_chapters findall splitTextModel text)
        = List.range' 1 (splitTextModel text).length
    ∧ ((extract_chapters findall splitTextModel text).length = 1
        ↔ (splitTextModel text).length = 1) := by
  have hnil := tryPatterns_eq_nil findall text chapter_patterns h
  have hsp : split_into_chapters findall text
      = [{ chapter_number := 1, title := "Complete Document"
           content := pyStrip text }] := by
    unfold split_into_chapters
    rw [hnil]
    simp
  have hfb : extract_chapters findall splitTextModel text
      = split_by_chunks splitTextModel text := by
    unfold extract_chapters
    rw [hsp]
    simp
  refine ⟨hfb, ?_, ?_⟩
  · rw [hfb, chapterNumbers_split_by_chunks]
  · rw [hfb, split_by_chunks_length]

/-- Witness for C7 (amended) at a concrete run: on "hello" no pattern
matches and the output is the chunk-fallback result, here a single unit. -/
theorem segment_no_boundary_chunk_fallback_witness :
    extract_chapters findallNoMatch splitTextModel "hello"
        = split_by_chunks splitTextModel "hello"
    ∧ extract_chapters findallNoMatch splitTextModel "hello"
        = [{ chapter_number := 1, title := "Section 1", content := "hello" }] := by
  have h := segment_no_boundary_chunk_fallback findallNoMatch "hello"
    (fun p _ => by simp [findallNoMatch])
  exact ⟨h.1, by rw [h.1]; decide⟩

/-- C8 (amended): the code scans the first three LINES of the stripped
chapter text (empty lines included), not the first three non-empty lines:
the title is the first of the first three stripped lines that is non-empty
and shorter than 100 characters; if none qualifies it falls back to the
first non-empty line of the whole text (truncated to 100 characters with an
ellipsis when longer), and it is the placeholder "Untitled Chapter" when no
non-empty line exists. -/
theorem title_first_three_lines_rule (s : String) :
    extract_chapter_title s =
      (match (((pySplit (pyStrip s) "\n").take 3).map pyStrip).find?
          (fun l => l ≠ "" && l.length < 100) with
       | some l => l
       | none =>
         match ((pySplit (pyStrip s) "\n").map pyStrip).filter
             (fun l => l ≠ "") with
         | l :: _ => if l.length > 100 then pyTake l 100 ++ "..." else l
         | [] => "Untitled Chapter") := by
  have hzeta : extract_chapter_title s =
      (match (((pySplit (pyStrip s) "\n").take 3).map pyStrip).find?
          (fun l => l ≠ "" && l.length < 100) with
       | some l => l
       | none =>
         match ((pySplit (pyStrip s) "\n").map pyStrip).find?
             (fun l => l ≠ "") with
         | some l => if l.length > 100 then pyTake l 100 ++ "..." else l
         | none => "Untitled Chapter") := rfl
  rw [hzeta]
  rw [show ((pySplit (pyStrip s) "\n").map pyStrip).find? (fun l => l ≠ "")
      = (((pySplit (pyStrip s) "\n").map pyStrip).filter
          (fun l => l ≠ "")).head? from (List.filter_head? _ _).symm]
  cases (((pySplit (pyStrip s) "\n").take 3).map pyStrip).find?
      (fun l => l ≠ "" && l.length < 100) with
  | some l => rfl
  | none =>
    cases ((pySplit (pyStrip s) "\n").map pyStrip).filter (fun l => l ≠ "") with
    | nil => rfl
    | cons a as => rfl
